import Mathlib

/-
Verification of the chipmusic-cli repository (Broar/chipmusic-cli).

This file gives a shallow embedding of the parts of the program that the
checked properties talk about:

* pkg/player/player.go — the TrackPlayer playback controller (the revision
  that the bundled test file compiles against: it declares ErrNilTrack,
  ErrUnknownFileFormat, and Skip seeks to Len() - 1).  The beep stream is
  modelled as a record with a length, a position, a closed flag and the
  error behaviour of its Seek and Close methods; the beep.Ctrl streamer
  field is modelled as a tag saying whether it points at the plain current
  stream or at the beep.Loop wrapper around it.  Fields of the Go struct
  that no modelled operation reads (bufferSize, format, the context/done
  plumbing used only for the completion signal) are omitted.
* pkg/chipmusic/client.go — Client construction (NewClient, WithBaseURL,
  WithHTTPClient), GetTrack and Search.  HTTP transport and the goquery
  document handling are external collaborators; they are abstracted as
  oracle parameters, and every function additionally returns the list of
  request URLs it issued so that claims about which requests are made can
  be stated.
* the chunk partition of the concurrent downloader, which is not among the
  provided source files and is therefore modelled from the spec (see the
  doc comments on the chunk definitions).

Go machine integers never get near overflow in the modelled code paths, so
int is modelled as Int (or Nat where the quantity is a count).
-/

namespace Chipmusic

/-- Classification of Go error values used by the modelled code.  A value
built by fmt.Errorf with a %w verb is modelled by the wrap constructor;
errors.Is is modelled by GoErr.goIs, which unwraps wrap chains. -/
inductive GoErr : Type where
  | eof : GoErr
  | nilTrack : GoErr
  | unknownFileFormat : GoErr
  | transport : GoErr
  | parseFail : GoErr
  | statusNotOK (code : Nat) : GoErr
  | seekFail : GoErr
  | closeFail : GoErr
  | invalidURL (url base : String) : GoErr
  | wrap (msg : String) (e : GoErr) : GoErr
deriving DecidableEq

/-- Go errors.Is for the modelled errors: a wrapped error matches a target
when its wrapped cause does; a sentinel matches only itself.  A wrap value
is a fresh fmt.Errorf allocation and is never pointer-equal to a target. -/
def GoErr.goIs : GoErr → GoErr → Bool
  | .wrap _ e, target => e.goIs target
  | e, target => e == target

/-- Model of a beep.StreamSeekCloser: a decoded audio stream with a length
and a position (both Go ints), a closed flag, and the error behaviour of
its Seek and Close methods.  seekErrAt gives the error Seek returns for a
given target position; when Seek errors the position is left unchanged
(the mp3 decoder validates the target before moving), when it succeeds the
position becomes the target. -/
structure Stream where
  len : Int
  pos : Int
  closed : Bool
  seekErrAt : Int → Option GoErr
  closeErr : Option GoErr

/-- Stream.Seek: on success the position becomes the target, on error the
position is unchanged and the error is surfaced. -/
def Stream.seek (s : Stream) (target : Int) : Stream × Option GoErr :=
  match s.seekErrAt target with
  | none => ({ s with pos := target }, none)
  | some e => (s, some e)

/-- The beep.Ctrl Streamer field, as installed by the player: either the
plain current stream object itself, or the beep.Loop wrapper around that
same object (Loop installs beep.Loop(math.MaxInt32, t.current)). -/
inductive StreamerRef : Type where
  | plainCurrent : StreamerRef
  | loopedCurrent (times : Int) : StreamerRef
deriving DecidableEq

/-- math.MaxInt32, the repeat count passed to beep.Loop. -/
def maxInt32 : Int := 2147483647

/-- Model of beep.Ctrl: the streamer it renders and its Paused flag. -/
structure Ctrl where
  streamer : StreamerRef
  paused : Bool
deriving DecidableEq

/-- AudioFileTypeMP3, the only file type the player can decode. -/
def AudioFileTypeMP3 : String := "mp3"

/-- Model of chipmusic.Track.  The Reader is modelled by decodeResult: the
outcome mp3.Decode produces from it (a decoded stream, or a decode
error). -/
structure Track where
  title : String
  artist : String
  fileType : String
  decodeResult : Except GoErr Stream

/-- Model of player.TrackPlayer: the beep.Ctrl (nil when no track has been
played), the current stream (nil when no track has been played), and the
looping flag.  A freshly constructed TrackPlayer has ctrl = none,
current = none, looping = false. -/
structure TrackPlayer where
  ctrl : Option Ctrl
  current : Option Stream
  looping : Bool

/-- The state NewTrackPlayer constructs: no ctrl, no current stream. -/
def TrackPlayer.idle : TrackPlayer :=
  { ctrl := none, current := none, looping := false }

/-- decodeTrackAudio: mp3 tracks are decoded (the outcome is the modelled
reader behaviour); every other file type yields
fmt.Errorf("%w: %s", ErrUnknownFileFormat, track.FileType). -/
def TrackPlayer.decodeTrackAudio (track : Track) : Except GoErr Stream :=
  if track.fileType = AudioFileTypeMP3 then
    track.decodeResult
  else
    Except.error (GoErr.wrap track.fileType GoErr.unknownFileFormat)

/-- Close: returns nil immediately when current is nil; otherwise closes
the current stream (marking it closed) and returns the result of its Close
method.  The current field itself is not cleared by the source. -/
def TrackPlayer.Close (t : TrackPlayer) : TrackPlayer × Option GoErr :=
  match t.current with
  | none => (t, none)
  | some s => ({ t with current := some { s with closed := true } }, s.closeErr)

/-- Play: a nil track fails with ErrNilTrack before anything is touched;
an undecodable file type fails with the wrapped decode error before
anything is touched; then the speaker is initialised (outcome given by the
speakerInitErr oracle), the previous track is closed, and the new stream
is installed in a fresh unpaused ctrl. -/
def TrackPlayer.Play (t : TrackPlayer) (speakerInitErr : Option GoErr)
    (track : Option Track) : TrackPlayer × Option GoErr :=
  match track with
  | none => (t, some GoErr.nilTrack)
  | some tr =>
    match TrackPlayer.decodeTrackAudio tr with
    | .error e => (t, some (GoErr.wrap "failed to decode track audio" e))
    | .ok stream =>
      match speakerInitErr with
      | some e => (t, some (GoErr.wrap "failed to initalize speaker" e))
      | none =>
        match TrackPlayer.Close t with
        | (t1, some e) => (t1, some (GoErr.wrap "failed to close current track" e))
        | (t1, none) =>
          ({ t1 with
              current := some stream,
              ctrl := some { streamer := StreamerRef.plainCurrent, paused := false } },
            none)

/-- Pause: does nothing when ctrl is nil, otherwise toggles Paused. -/
def TrackPlayer.Pause (t : TrackPlayer) : TrackPlayer :=
  match t.ctrl with
  | none => t
  | some c => { t with ctrl := some { c with paused := !c.paused } }

/-- Stop: returns nil when ctrl is nil; otherwise sets Paused, then seeks
the current stream to 0, wrapping a seek error.  The outer Option is none
exactly on the unreachable nil dereference of current (ctrl set, current
nil), where the Go code would panic. -/
def TrackPlayer.Stop (t : TrackPlayer) : Option (TrackPlayer × Option GoErr) :=
  match t.ctrl with
  | none => some (t, none)
  | some c =>
    match t.current with
    | none => none
    | some s =>
      match s.seek 0 with
      | (s1, none) =>
        some ({ t with ctrl := some { c with paused := true }, current := some s1 }, none)
      | (s1, some e) =>
        some ({ t with ctrl := some { c with paused := true }, current := some s1 },
          some (GoErr.wrap "failed to seek to start of track" e))

/-- Loop: does nothing when ctrl is nil; otherwise when looping it points
the ctrl streamer back at the current stream object and clears the flag,
and when not looping it installs beep.Loop(math.MaxInt32, current) and
sets the flag. -/
def TrackPlayer.Loop (t : TrackPlayer) : TrackPlayer :=
  match t.ctrl with
  | none => t
  | some c =>
    if t.looping then
      { t with ctrl := some { c with streamer := StreamerRef.plainCurrent },
               looping := false }
    else
      { t with ctrl := some { c with streamer := StreamerRef.loopedCurrent maxInt32 },
               looping := true }

/-- Skip: returns nil when ctrl is nil; otherwise seeks the current stream
to Len() - 1 and, when the seek error err satisfies
err != nil && errors.Is(err, io.EOF), returns the wrapped error; any other
seek error is dropped.  The outer Option is none exactly on the
unreachable nil dereference of current. -/
def TrackPlayer.Skip (t : TrackPlayer) : Option (TrackPlayer × Option GoErr) :=
  match t.ctrl with
  | none => some (t, none)
  | some _ =>
    match t.current with
    | none => none
    | some s =>
      match s.seek (s.len - 1) with
      | (s1, none) => some ({ t with current := some s1 }, none)
      | (s1, some e) =>
        if e.goIs GoErr.eof then
          some ({ t with current := some s1 },
            some (GoErr.wrap "failed to seek to end of track" e))
        else
          some ({ t with current := some s1 }, none)

/-- DefaultBaseURL of chipmusic.org. -/
def DefaultBaseURL : String := "https://chipmusic.org"

/-- Model of chipmusic.Client: only the configured base URL matters to the
modelled operations; the HTTP client is an oracle parameter of each
operation. -/
structure Client where
  baseURL : String
deriving DecidableEq

/-- The two exported client options.  withBaseURL carries, besides the
candidate URL, whether url.Parse accepts it (an external concern). -/
inductive ClientOption : Type where
  | withBaseURL (parseAccepts : Bool) (baseURL : String) : ClientOption
  | withHTTPClient : ClientOption
deriving DecidableEq

/-- Applying one option: WithBaseURL rejects the empty string, then
rejects what url.Parse rejects, then installs the URL; WithHTTPClient only
swaps the HTTP client (not part of the modelled state). -/
def applyOption : ClientOption → Client → Except String Client
  | .withBaseURL parseAccepts u, c =>
    if u = "" then Except.error "URL cannot be empty"
    else if parseAccepts then Except.ok { c with baseURL := u }
    else Except.error "failed to parse base URL"
  | .withHTTPClient, c => Except.ok c

/-- Folds the option list over a client, stopping at the first error. -/
def applyOptions : List ClientOption → Client → Except String Client
  | [], c => Except.ok c
  | opt :: more, c =>
    match applyOption opt c with
    | .error e => Except.error e
    | .ok c1 => applyOptions more c1

/-- NewClient: starts from the DefaultBaseURL client and applies every
option, wrapping the first option error. -/
def NewClient (options : List ClientOption) : Except String Client :=
  match applyOptions options { baseURL := DefaultBaseURL } with
  | .error e => Except.error ("failed to create client: " ++ e)
  | .ok c => Except.ok c

/-- Leading-run test on character lists: the first list is a leading run
of the second. -/
def charsLeadWith : List Char → List Char → Bool
  | [], _ => true
  | _ :: _, [] => false
  | a :: as, b :: bs => a == b && charsLeadWith as bs

/-- Go strings.HasPrefix s pre, written with the string to test first. -/
def strStartsWith (s pre : String) : Bool :=
  charsLeadWith pre.data s.data

/-- Outcome of one HTTP GET, as the modelled code consumes it: a transport
failure from client.Do, or a response carrying a status code and the
outcome of parsing its body into a document of type Doc. -/
inductive HTTPResult (Doc : Type) : Type where
  | failed : HTTPResult Doc
  | response (status : Nat) (body : Except GoErr Doc) : HTTPResult Doc

/-- getTrackPageDocument: one GET of the track page URL; non-200 statuses
and body parse failures become errors.  The second component is the list
of request URLs issued. -/
def Client.getTrackPageDocument {Doc : Type} (_ : Client)
    (http : String → HTTPResult Doc) (trackPageURL : String) :
    Except GoErr Doc × List String :=
  match http trackPageURL with
  | .failed =>
    (Except.error (GoErr.wrap "failed to get response when getting track page" GoErr.transport),
      [trackPageURL])
  | .response status body =>
    if status ≠ 200 then (Except.error (GoErr.statusNotOK status), [trackPageURL])
    else
      match body with
      | .error e =>
        (Except.error (GoErr.wrap "failed to create parser when getting track page" e),
          [trackPageURL])
      | .ok d => (Except.ok d, [trackPageURL])

/-- GetTrack: rejects any track page URL that does not start with the
configured base URL before issuing any request; otherwise fetches the
track page document and hands it to parseTrack (abstracted as the
parseTrackFn oracle together with the download requests it issues). -/
def Client.GetTrack {Doc : Type} (c : Client) (http : String → HTTPResult Doc)
    (parseTrackFn : Doc → Except GoErr Track × List String)
    (trackPageURL : String) : Except GoErr Track × List String :=
  if strStartsWith trackPageURL c.baseURL = false then
    (Except.error (GoErr.invalidURL trackPageURL c.baseURL), [])
  else
    match c.getTrackPageDocument http trackPageURL with
    | (.error e, reqs) =>
      (Except.error (GoErr.wrap "failed to get track page document" e), reqs)
    | (.ok d, reqs) =>
      match parseTrackFn d with
      | (.error e, reqs2) =>
        (Except.error (GoErr.wrap "failed to download track" e), reqs ++ reqs2)
      | (.ok track, reqs2) => (Except.ok track, reqs ++ reqs2)

/-- The recognised filter names of Search. -/
def TrackFilterLatest : String := "latest"

/-- Filter name for random tracks. -/
def TrackFilterRandom : String := "random"

/-- Filter name for featured tracks. -/
def TrackFilterFeatured : String := "featured"

/-- Filter name for highly rated tracks. -/
def TrackFilterHighRatings : String := "popular"

/-- The fallback filter value used for unrecognised filter names. -/
def defaultTrackFilter : String := "8"

/-- The filter-name-to-query-value table of the client. -/
def filters : List (String × String) :=
  [(TrackFilterLatest, defaultTrackFilter), (TrackFilterRandom, "8"),
   (TrackFilterFeatured, "9"), (TrackFilterHighRatings, "10")]

/-- Page normalisation at the top of Search: pages below 1 become 1. -/
def normalizePage (page : Int) : Int := if page ≤ 0 then 1 else page

/-- Filter resolution at the top of Search: a map lookup with
defaultTrackFilter as fallback. -/
def resolveFilter (f : String) : String :=
  match filters.lookup f with
  | some v => v
  | none => defaultTrackFilter

/-- The search request URL as the query parameters determine it: base is
baseURL ++ "/music"; the three fields are the "#s", "p" and "f" query
parameters before encoding. -/
structure SearchURL where
  base : String
  searchParam : String
  pageParam : String
  filterParam : String
deriving DecidableEq

/-- Search: normalises the page and the filter, builds the request URL
(url.Parse of baseURL ++ "/music" is the parseOk oracle), performs the GET
(the http oracle returns the parsed track links of the result page), and
surfaces transport, status and parse failures as wrapped errors. -/
def Client.Search (c : Client) (parseOk : String → Bool)
    (http : SearchURL → HTTPResult (List String))
    (search filter : String) (page : Int) : Except GoErr (List String) :=
  if parseOk (c.baseURL ++ "/music") = false then
    Except.error (GoErr.wrap "failed to build search URL" GoErr.parseFail)
  else
    match http { base := c.baseURL ++ "/music", searchParam := search,
                 pageParam := toString (normalizePage page),
                 filterParam := resolveFilter filter } with
    | .failed =>
      Except.error (GoErr.wrap "failed to get search page document" GoErr.transport)
    | .response status body =>
      if status ≠ 200 then
        Except.error (GoErr.wrap "failed to get search page document" (GoErr.statusNotOK status))
      else
        match body with
        | .error e => Except.error (GoErr.wrap "failed to get search page document" e)
        | .ok tracks => Except.ok tracks

/-- Modelled from the spec: the Chunk record of the concurrent downloader
(component ChunkedDownloader), whose source is not among the provided
files of the repository. -/
structure Chunk where
  index : Nat
  startOffset : Nat
  endOffsetInclusive : Nat
deriving DecidableEq

/-- Modelled from the spec: the naive chunk size, the integer division of
the total length by the worker count. -/
def chunkSize (L W : Nat) : Nat := L / W

/-- Modelled from the spec: chunk 0 starts at 0, every subsequent chunk
starts one byte past the naive boundary i * size. -/
def chunkStart (L W i : Nat) : Nat :=
  if i = 0 then 0 else i * chunkSize L W + 1

/-- Modelled from the spec: every chunk but the last ends (inclusively) at
the naive boundary (i + 1) * size; the last chunk absorbs the remainder of
the integer division and ends at the final byte L - 1. -/
def chunkEndIncl (L W i : Nat) : Nat :=
  if i = W - 1 then L - 1 else (i + 1) * chunkSize L W

/-- Modelled from the spec: the chunk a worker is assigned. -/
def makeChunk (L W i : Nat) : Chunk :=
  { index := i, startOffset := chunkStart L W i,
    endOffsetInclusive := chunkEndIncl L W i }

/-- Modelled from the spec: the chunk partition the downloader dispatches.
A zero-length resource dispatches no workers; a chunk whose computed span
is empty is skipped. -/
def makeChunks (L W : Nat) : List Chunk :=
  if L = 0 then []
  else ((List.range W).map (makeChunk L W)).filter
    (fun ch => decide (ch.startOffset ≤ ch.endOffsetInclusive))

/-- A chunk covers byte b when b lies in its inclusive range. -/
def Chunk.covers (ch : Chunk) (b : Nat) : Bool :=
  decide (ch.startOffset ≤ b) && decide (b ≤ ch.endOffsetInclusive)

/-- The number of dispatched chunks whose range contains byte b. -/
def countCovering (L W b : Nat) : Nat :=
  (makeChunks L W).countP (fun ch => ch.covers b)

/-- The index of the chunk responsible for byte b (used to state that the
covering chunk is unique). -/
def chunkOwner (L W b : Nat) : Nat :=
  if chunkSize L W = 0 then (if b = 0 then 0 else W - 1)
  else min ((b - 1) / chunkSize L W) (W - 1)

/-- A decoded stream whose seeks always succeed, for concrete states. -/
def sampleStream : Stream :=
  { len := 100, pos := 7, closed := false, seekErrAt := fun _ => none, closeErr := none }

/-- A playing controller state holding sampleStream. -/
def samplePlayer : TrackPlayer :=
  { ctrl := some { streamer := StreamerRef.plainCurrent, paused := false },
    current := some sampleStream, looping := false }

/-- A decoded stream whose seek to Len() - 1 reports io.EOF. -/
def eofSeekStream : Stream :=
  { len := 5, pos := 2, closed := false,
    seekErrAt := fun target => if target = 4 then some GoErr.eof else none,
    closeErr := none }

/-- A playing controller state holding eofSeekStream. -/
def eofSeekPlayer : TrackPlayer :=
  { ctrl := some { streamer := StreamerRef.plainCurrent, paused := false },
    current := some eofSeekStream, looping := false }

/-- A track whose declared file type has no decoder. -/
def wavTrack : Track :=
  { title := "some.title", artist := "some.artist", fileType := "wav",
    decodeResult := Except.error GoErr.transport }

/-- The client NewClient builds when no option overrides the base URL. -/
def defaultClient : Client := { baseURL := DefaultBaseURL }

/-- An HTTP oracle on which every request fails at the transport. -/
def noHTTP : String → HTTPResult Unit := fun _ => HTTPResult.failed

/-- A parseTrack collaborator that fails and issues no request. -/
def noParseTrack : Unit → Except GoErr Track × List String :=
  fun _ => (Except.error GoErr.transport, [])

/-- A url.Parse oracle accepting every URL. -/
def okParse : String → Bool := fun _ => true

/-- A search HTTP oracle on which every request fails at the transport. -/
def noSearchHTTP : SearchURL → HTTPResult (List String) := fun _ => HTTPResult.failed

end Chipmusic

namespace Chipmusic

/-- Claim C3: Play called with a nil track returns the nil-track error;
no stream is registered and the controller state, including any previously
active stream, is returned unchanged. -/
theorem play_nil_track (t : TrackPlayer) (speakerInitErr : Option GoErr) :
    TrackPlayer.Play t speakerInitErr none = (t, some GoErr.nilTrack) := rfl

/-- Claim C7: Play called with a track whose declared file type is not mp3
returns synchronously with an error that errors.Is-matches
ErrUnknownFileFormat, and the controller state is returned unchanged: no
stream is registered and the prior active stream is untouched. -/
theorem play_unknown_format (t : TrackPlayer) (speakerInitErr : Option GoErr)
    (tr : Track) (h : tr.fileType ≠ AudioFileTypeMP3) :
    TrackPlayer.Play t speakerInitErr (some tr) =
      (t, some (GoErr.wrap "failed to decode track audio"
        (GoErr.wrap tr.fileType GoErr.unknownFileFormat))) ∧
    GoErr.goIs (GoErr.wrap "failed to decode track audio"
        (GoErr.wrap tr.fileType GoErr.unknownFileFormat)) GoErr.unknownFileFormat = true := by
  refine ⟨?_, by simp [GoErr.goIs]⟩
  simp [TrackPlayer.Play, TrackPlayer.decodeTrackAudio, h]

/-- Witness for play_unknown_format at a concrete wav track. -/
theorem play_unknown_format_witness :
    TrackPlayer.Play TrackPlayer.idle none (some wavTrack) =
      (TrackPlayer.idle, some (GoErr.wrap "failed to decode track audio"
        (GoErr.wrap "wav" GoErr.unknownFileFormat))) ∧
    GoErr.goIs (GoErr.wrap "failed to decode track audio"
        (GoErr.wrap "wav" GoErr.unknownFileFormat)) GoErr.unknownFileFormat = true :=
  play_unknown_format TrackPlayer.idle none wavTrack (by decide)

/-- Claim C5: Pause toggled twice restores the exact controller state, a
single Pause never alters the current stream (hence its position), and
Pause on a controller with no ctrl is a no-op. -/
theorem pause_toggle (t : TrackPlayer) :
    TrackPlayer.Pause (TrackPlayer.Pause t) = t ∧
    (TrackPlayer.Pause t).current = t.current ∧
    (t.ctrl = none → TrackPlayer.Pause t = t) := by
  obtain ⟨ctrl, current, looping⟩ := t
  cases ctrl with
  | none => exact ⟨rfl, rfl, fun _ => rfl⟩
  | some c =>
    obtain ⟨st, p⟩ := c
    refine ⟨?_, rfl, fun h => nomatch h⟩
    simp [TrackPlayer.Pause]

/-- Witness for pause_toggle at a concrete playing state. -/
theorem pause_toggle_witness :
    TrackPlayer.Pause (TrackPlayer.Pause samplePlayer) = samplePlayer ∧
    (TrackPlayer.Pause samplePlayer).current = samplePlayer.current ∧
    (samplePlayer.ctrl = none → TrackPlayer.Pause samplePlayer = samplePlayer) :=
  pause_toggle samplePlayer

/-- Claim C4: on a playing track (ctrl pointing at the plain current
stream, looping off), calling Loop twice returns the exact original
controller state: the ctrl streamer again denotes the identical current
stream object, the looping flag is back to false, and the current stream
(hence its position) is untouched. -/
theorem loop_toggle_restores (t : TrackPlayer) (c : Ctrl)
    (hc : t.ctrl = some c) (hs : c.streamer = StreamerRef.plainCurrent)
    (hl : t.looping = false) :
    TrackPlayer.Loop (TrackPlayer.Loop t) = t := by
  obtain ⟨ctrl, current, looping⟩ := t
  obtain ⟨st, p⟩ := c
  simp only at hc hl
  subst hc hl
  simp only at hs
  subst hs
  rfl

/-- Witness for loop_toggle_restores at a concrete playing state. -/
theorem loop_toggle_restores_witness :
    TrackPlayer.Loop (TrackPlayer.Loop samplePlayer) = samplePlayer :=
  loop_toggle_restores samplePlayer
    { streamer := StreamerRef.plainCurrent, paused := false } rfl rfl rfl

/-- Claim C6: whenever a track is loaded and the rewind seek succeeds,
Stop returns without error, the ctrl is paused, the stream position is 0,
and the stream itself is not closed or released (its closed flag is
untouched and the current reference stays installed). -/
theorem stop_rewinds_pauses (t : TrackPlayer) (c : Ctrl) (s : Stream)
    (hc : t.ctrl = some c) (hs : t.current = some s)
    (hseek : s.seekErrAt 0 = none) :
    TrackPlayer.Stop t =
      some ({ t with ctrl := some { c with paused := true },
                     current := some { s with pos := 0 } }, none) ∧
    ({ s with pos := 0 } : Stream).closed = s.closed := by
  refine ⟨?_, rfl⟩
  obtain ⟨ctrl, current, looping⟩ := t
  simp only at hc hs
  subst hc hs
  simp [TrackPlayer.Stop, Stream.seek, hseek]

/-- Witness for stop_rewinds_pauses at a concrete playing state. -/
theorem stop_rewinds_pauses_witness :
    TrackPlayer.Stop samplePlayer =
      some ({ samplePlayer with
                ctrl := some { streamer := StreamerRef.plainCurrent, paused := true },
                current := some { sampleStream with pos := 0 } }, none) ∧
    ({ sampleStream with pos := 0 } : Stream).closed = sampleStream.closed :=
  stop_rewinds_pauses samplePlayer
    { streamer := StreamerRef.plainCurrent, paused := false } sampleStream rfl rfl rfl

/-- Claim C8: on an idle controller (no ctrl, no current stream) Pause,
Stop, Loop, Skip and Close all leave the state unchanged and none of them
returns an error. -/
theorem idle_ops_noop (t : TrackPlayer) (hc : t.ctrl = none) (hcur : t.current = none) :
    TrackPlayer.Pause t = t ∧ TrackPlayer.Stop t = some (t, none) ∧
    TrackPlayer.Loop t = t ∧ TrackPlayer.Skip t = some (t, none) ∧
    TrackPlayer.Close t = (t, none) := by
  refine ⟨?_, ?_, ?_, ?_, ?_⟩ <;>
    simp [TrackPlayer.Pause, TrackPlayer.Stop, TrackPlayer.Loop, TrackPlayer.Skip,
      TrackPlayer.Close, hc, hcur]

/-- Witness for idle_ops_noop at the freshly constructed player. -/
theorem idle_ops_noop_witness :
    TrackPlayer.Pause TrackPlayer.idle = TrackPlayer.idle ∧
    TrackPlayer.Stop TrackPlayer.idle = some (TrackPlayer.idle, none) ∧
    TrackPlayer.Loop TrackPlayer.idle = TrackPlayer.idle ∧
    TrackPlayer.Skip TrackPlayer.idle = some (TrackPlayer.idle, none) ∧
    TrackPlayer.Close TrackPlayer.idle = (TrackPlayer.idle, none) :=
  idle_ops_noop TrackPlayer.idle rfl rfl

/-- Claim C2, evaluated at the failing input: on a playing state whose
stream reports io.EOF from the seek to Len() - 1, Skip returns a wrapped
error that errors.Is-matches io.EOF, because the source condition
err != nil && errors.Is(err, io.EOF) surfaces exactly the end-of-stream
error that the claim says is treated as success. -/
theorem skip_surfaces_eof_error :
    TrackPlayer.Skip eofSeekPlayer =
      some (eofSeekPlayer, some (GoErr.wrap "failed to seek to end of track" GoErr.eof)) ∧
    GoErr.goIs (GoErr.wrap "failed to seek to end of track" GoErr.eof) GoErr.eof = true := by
  constructor
  · rfl
  · rfl

end Chipmusic

namespace Chipmusic

/-- Helper: applying the exported options preserves a nonempty base URL. -/
theorem applyOptions_baseURL_ne (opts : List ClientOption) :
    ∀ c0 c : Client, c0.baseURL ≠ "" → applyOptions opts c0 = Except.ok c →
      c.baseURL ≠ "" := by
  induction opts with
  | nil =>
    intro c0 c h0 h
    simp only [applyOptions] at h
    cases h
    exact h0
  | cons opt more ih =>
    intro c0 c h0 h
    simp only [applyOptions] at h
    cases hopt : applyOption opt c0 with
    | error e => rw [hopt] at h; cases h
    | ok c1 =>
      rw [hopt] at h
      refine ih c1 c ?_ h
      cases opt with
      | withBaseURL parseAccepts u =>
        by_cases hu : u = ""
        · simp [applyOption, hu] at hopt
        · by_cases hpa : parseAccepts
          · simp only [applyOption, if_neg hu, if_pos hpa] at hopt
            cases hopt
            exact hu
          · simp [applyOption, hu, hpa] at hopt
      | withHTTPClient =>
        simp only [applyOption] at hopt
        cases hopt
        exact h0

/-- Helper: every client NewClient succeeds with has a nonempty base
URL. -/
theorem newClient_baseURL_ne (opts : List ClientOption) (c : Client)
    (h : NewClient opts = Except.ok c) : c.baseURL ≠ "" := by
  unfold NewClient at h
  cases happ : applyOptions opts { baseURL := DefaultBaseURL } with
  | error e => rw [happ] at h; cases h
  | ok c1 =>
    rw [happ] at h
    cases h
    exact applyOptions_baseURL_ne opts { baseURL := DefaultBaseURL } c (by decide) happ

/-- Helper: no nonempty string is a leading run of the empty string. -/
theorem strStartsWith_empty_of_ne (p : String) (hp : p ≠ "") :
    strStartsWith "" p = false := by
  obtain ⟨data⟩ := p
  cases data with
  | nil => exact absurd rfl hp
  | cons a as => rfl

/-- Claim C9: a track page URL that does not start with the configured
base URL makes GetTrack return the invalid-URL error naming that URL, with
no HTTP request issued; in particular every client built by NewClient
rejects the empty URL this way. -/
theorem getTrack_rejects_invalid (Doc : Type) (c : Client)
    (http : String → HTTPResult Doc)
    (parseTrackFn : Doc → Except GoErr Track × List String) (u : String) :
    (strStartsWith u c.baseURL = false →
      Client.GetTrack c http parseTrackFn u =
        (Except.error (GoErr.invalidURL u c.baseURL), [])) ∧
    (∀ opts : List ClientOption, NewClient opts = Except.ok c →
      Client.GetTrack c http parseTrackFn "" =
        (Except.error (GoErr.invalidURL "" c.baseURL), [])) := by
  constructor
  · intro h
    simp [Client.GetTrack, h]
  · intro opts hnc
    have hne := newClient_baseURL_ne opts c hnc
    have h0 : strStartsWith "" c.baseURL = false := strStartsWith_empty_of_ne _ hne
    simp [Client.GetTrack, h0]

/-- Witness for getTrack_rejects_invalid: the default client rejects a
foreign URL and the empty URL without issuing a request. -/
theorem getTrack_rejects_invalid_witness :
    Client.GetTrack defaultClient noHTTP noParseTrack "http://other.example/track" =
      (Except.error (GoErr.invalidURL "http://other.example/track" DefaultBaseURL), []) ∧
    Client.GetTrack defaultClient noHTTP noParseTrack "" =
      (Except.error (GoErr.invalidURL "" DefaultBaseURL), []) := by
  constructor
  · exact (getTrack_rejects_invalid Unit defaultClient noHTTP noParseTrack
      "http://other.example/track").1 (by decide)
  · exact (getTrack_rejects_invalid Unit defaultClient noHTTP noParseTrack
      "http://other.example/track").2 [] rfl

/-- Helper: Search depends on the page and the filter only through
normalizePage and resolveFilter. -/
theorem search_congr (c : Client) (parseOk : String → Bool)
    (http : SearchURL → HTTPResult (List String)) (s : String)
    (f1 f2 : String) (p1 p2 : Int)
    (hp : normalizePage p1 = normalizePage p2)
    (hf : resolveFilter f1 = resolveFilter f2) :
    Client.Search c parseOk http s f1 p1 = Client.Search c parseOk http s f2 p2 := by
  simp only [Client.Search, hp, hf]

/-- Claim C10: Search with page at most 0 returns exactly what page 1
returns, and Search with a filter name outside latest, random, featured,
popular returns exactly what the default (latest) filter returns. -/
theorem search_normalizes (c : Client) (parseOk : String → Bool)
    (http : SearchURL → HTTPResult (List String)) (s f : String) (page : Int) :
    (page ≤ 0 →
      Client.Search c parseOk http s f page = Client.Search c parseOk http s f 1) ∧
    (f ≠ TrackFilterLatest → f ≠ TrackFilterRandom → f ≠ TrackFilterFeatured →
      f ≠ TrackFilterHighRatings →
      Client.Search c parseOk http s f page =
        Client.Search c parseOk http s TrackFilterLatest page) := by
  constructor
  · intro hpage
    refine search_congr c parseOk http s f f page 1 ?_ rfl
    simp [normalizePage, hpage]
  · intro h1 h2 h3 h4
    refine search_congr c parseOk http s f TrackFilterLatest page page rfl ?_
    have e1 : (f == TrackFilterLatest) = false := beq_eq_false_iff_ne.mpr h1
    have e2 : (f == TrackFilterRandom) = false := beq_eq_false_iff_ne.mpr h2
    have e3 : (f == TrackFilterFeatured) = false := beq_eq_false_iff_ne.mpr h3
    have e4 : (f == TrackFilterHighRatings) = false := beq_eq_false_iff_ne.mpr h4
    have hnone : filters.lookup f = none := by
      simp [filters, List.lookup, e1, e2, e3, e4]
    rw [resolveFilter, hnone]
    decide

/-- Witness for search_normalizes: page 0 with an unrecognised filter
behaves as page 1 and as the latest filter. -/
theorem search_normalizes_witness :
    Client.Search defaultClient okParse noSearchHTTP "chip" "bogus" 0 =
      Client.Search defaultClient okParse noSearchHTTP "chip" "bogus" 1 ∧
    Client.Search defaultClient okParse noSearchHTTP "chip" "bogus" 0 =
      Client.Search defaultClient okParse noSearchHTTP "chip" TrackFilterLatest 0 := by
  constructor
  · exact (search_normalizes defaultClient okParse noSearchHTTP "chip" "bogus" 0).1
      (by decide)
  · exact (search_normalizes defaultClient okParse noSearchHTTP "chip" "bogus" 0).2
      (by decide) (by decide) (by decide) (by decide)

end Chipmusic

namespace Chipmusic

/-- Helper: a byte covered by any chunk of index below W lies inside the
resource range. -/
theorem chunk_covers_lt (L W i b : Nat) (hL : 1 ≤ L) (hW : 1 ≤ W) (hi : i < W)
    (h1 : chunkStart L W i ≤ b) (h2 : b ≤ chunkEndIncl L W i) : b < L := by
  unfold chunkEndIncl at h2
  by_cases hlast : i = W - 1
  · rw [if_pos hlast] at h2
    omega
  · rw [if_neg hlast] at h2
    have hiW : i + 1 ≤ W - 1 := by omega
    have hmul : (i + 1) * chunkSize L W ≤ (W - 1) * chunkSize L W :=
      Nat.mul_le_mul_right _ hiW
    have hdiv : chunkSize L W * W ≤ L := by
      unfold chunkSize
      exact Nat.div_mul_le_self L W
    have hWs : W * chunkSize L W = (W - 1) * chunkSize L W + chunkSize L W := by
      cases W with
      | zero => omega
      | succ w => simp [Nat.succ_sub_one, Nat.succ_mul]
    have hdiv2 : W * chunkSize L W ≤ L := by rw [Nat.mul_comm]; exact hdiv
    by_cases hs : chunkSize L W = 0
    · rw [hs] at h2
      simp at h2
      omega
    · omega

/-- Helper: the chunk that covers a byte is the one chunkOwner picks, so
no two chunks cover the same byte. -/
theorem chunk_covers_owner (L W i b : Nat) (hW : 1 ≤ W) (hi : i < W)
    (h1 : chunkStart L W i ≤ b) (h2 : b ≤ chunkEndIncl L W i) :
    i = chunkOwner L W b := by
  unfold chunkStart at h1
  unfold chunkEndIncl at h2
  unfold chunkOwner
  by_cases hs : chunkSize L W = 0
  · rw [if_pos hs]
    by_cases hi0 : i = 0
    · subst hi0
      by_cases hlast : (0 : Nat) = W - 1
      · by_cases hb0 : b = 0
        · simp [hb0]
        · rw [if_neg hb0]
          exact hlast
      · rw [if_neg hlast] at h2
        rw [hs] at h2
        simp at h2
        simp [h2]
    · rw [if_neg hi0, hs] at h1
      simp at h1
      by_cases hlast : i = W - 1
      · rw [if_neg (by omega : ¬ b = 0)]
        omega
      · rw [if_neg hlast, hs] at h2
        simp at h2
        omega
  · rw [if_neg hs]
    have hs1 : 0 < chunkSize L W := Nat.pos_of_ne_zero hs
    by_cases hi0 : i = 0
    · subst hi0
      by_cases hlast : (0 : Nat) = W - 1
      · have hW1 : W - 1 = 0 := hlast.symm
        rw [hW1]
        simp
      · rw [if_neg hlast] at h2
        simp at h2
        have hble : b - 1 < chunkSize L W := by omega
        rw [Nat.div_eq_of_lt hble]
        simp
    · rw [if_neg hi0] at h1
      have hile : i ≤ (b - 1) / chunkSize L W := by
        rw [Nat.le_div_iff_mul_le hs1]
        omega
      by_cases hlast : i = W - 1
      · have hmle : min ((b - 1) / chunkSize L W) (W - 1) ≤ W - 1 := Nat.min_le_right _ _
        have hmge : i ≤ min ((b - 1) / chunkSize L W) (W - 1) := le_min hile (by omega)
        omega
      · rw [if_neg hlast] at h2
        have hlt : (b - 1) / chunkSize L W < i + 1 := by
          rw [Nat.div_lt_iff_lt_mul hs1]
          omega
        have heq : (b - 1) / chunkSize L W = i := by omega
        rw [heq]
        have hmin : min i (W - 1) = i := Nat.min_eq_left (by omega)
        omega

/-- Helper: every byte of the resource is covered by the chunk chunkOwner
picks, whose index is below the worker count. -/
theorem chunk_owner_covers (L W b : Nat) (hL : 1 ≤ L) (hW : 1 ≤ W) (hb : b < L) :
    chunkOwner L W b < W ∧ chunkStart L W (chunkOwner L W b) ≤ b ∧
      b ≤ chunkEndIncl L W (chunkOwner L W b) := by
  by_cases hs : chunkSize L W = 0
  · have hs2 : L / W = 0 := hs
    have hLW : L < W := (Nat.div_eq_zero_iff (by omega)).mp hs2
    simp only [chunkOwner, if_pos hs]
    by_cases hb0 : b = 0
    · subst hb0
      have hred : (if (0 : Nat) = 0 then (0 : Nat) else W - 1) = 0 := by simp
      rw [hred]
      exact ⟨by omega, by simp [chunkStart], Nat.zero_le _⟩
    · simp only [if_neg hb0]
      refine ⟨by omega, ?_, ?_⟩
      · unfold chunkStart
        rw [if_neg (by omega : ¬ W - 1 = 0), hs]
        omega
      · unfold chunkEndIncl
        rw [if_pos rfl]
        omega
  · simp only [chunkOwner, if_neg hs]
    have hs1 : 0 < chunkSize L W := Nat.pos_of_ne_zero hs
    have hj2 : min ((b - 1) / chunkSize L W) (W - 1) ≤ W - 1 := Nat.min_le_right _ _
    refine ⟨by omega, ?_, ?_⟩
    · unfold chunkStart
      by_cases hj0 : min ((b - 1) / chunkSize L W) (W - 1) = 0
      · rw [if_pos hj0]
        omega
      · rw [if_neg hj0]
        have hb1 : 1 ≤ b := by
          by_contra hb1
          apply hj0
          have hbz : b = 0 := by omega
          subst hbz
          simp
        have hjle : min ((b - 1) / chunkSize L W) (W - 1) ≤ (b - 1) / chunkSize L W :=
          Nat.min_le_left _ _
        have hmul : min ((b - 1) / chunkSize L W) (W - 1) * chunkSize L W ≤
            ((b - 1) / chunkSize L W) * chunkSize L W := Nat.mul_le_mul_right _ hjle
        have hdm : ((b - 1) / chunkSize L W) * chunkSize L W ≤ b - 1 :=
          Nat.div_mul_le_self _ _
        omega
    · unfold chunkEndIncl
      by_cases hjlast : min ((b - 1) / chunkSize L W) (W - 1) = W - 1
      · rw [if_pos hjlast]
        omega
      · rw [if_neg hjlast]
        have hmin : min ((b - 1) / chunkSize L W) (W - 1) = (b - 1) / chunkSize L W := by
          rcases Nat.le_total ((b - 1) / chunkSize L W) (W - 1) with h | h
          · exact Nat.min_eq_left h
          · exact absurd (Nat.min_eq_right h) hjlast
        rw [hmin]
        have hup : b - 1 < ((b - 1) / chunkSize L W + 1) * chunkSize L W := by
          rw [← Nat.div_lt_iff_lt_mul hs1]
          omega
        omega

/-- Helper: a predicate that holds at exactly one index below n is counted
exactly once over range n. -/
theorem countP_range_eq_one (n : Nat) (p : Nat → Bool) :
    ∀ k, k < n → (∀ i, i < n → (p i = true ↔ i = k)) →
      (List.range n).countP p = 1 := by
  induction n with
  | zero => intro k hk h; omega
  | succ m ih =>
    intro k hk h
    rw [List.range_succ, List.countP_append]
    by_cases hkm : k = m
    · subst hkm
      have hz : (List.range k).countP p = 0 := by
        rw [List.countP_eq_zero]
        intro a ha
        rw [List.mem_range] at ha
        intro hpa
        have := (h a (by omega)).mp hpa
        omega
      have hp : p k = true := (h k (by omega)).mpr rfl
      simp [hz, hp]
    · have ihm := ih k (by omega) (fun i hi => h i (by omega))
      have hp : p m = false := by
        rw [← Bool.not_eq_true]
        intro hpm
        have := (h m (by omega)).mp hpm
        omega
      simp [ihm, hp]

/-- Claim C1 (modelled from the spec, whose downloader source is not among
the provided files): for every total length L and worker count W at least
1, every byte below L is covered by exactly one dispatched chunk and no
byte at or beyond L is covered by any chunk, so the partition covers
byte range 0 to L - 1 exactly once, the last chunk absorbing the division
remainder. -/
theorem chunk_partition_exactly_once (L W : Nat) (hW : 1 ≤ W) (b : Nat) :
    countCovering L W b = if b < L then 1 else 0 := by
  unfold countCovering makeChunks
  by_cases hL : L = 0
  · subst hL
    simp
  · rw [if_neg hL]
    have hL1 : 1 ≤ L := by omega
    rw [List.countP_filter, List.countP_map]
    by_cases hb : b < L
    · rw [if_pos hb]
      obtain ⟨how, hos, hoe⟩ := chunk_owner_covers L W b hL1 hW hb
      apply countP_range_eq_one W _ (chunkOwner L W b) how
      intro i hi
      simp only [Function.comp, makeChunk, Chunk.covers, Bool.and_eq_true, decide_eq_true_eq]
      constructor
      · rintro ⟨⟨h1, h2⟩, h3⟩
        exact chunk_covers_owner L W i b hW hi h1 h2
      · rintro rfl
        exact ⟨⟨hos, hoe⟩, by omega⟩
    · rw [if_neg hb]
      rw [List.countP_eq_zero]
      intro i hi
      rw [List.mem_range] at hi
      simp only [Function.comp, makeChunk, Chunk.covers, Bool.and_eq_true, decide_eq_true_eq]
      rintro ⟨⟨h1, h2⟩, h3⟩
      exact hb (chunk_covers_lt L W i b hL1 hW hi h1 h2)

/-- Witness for chunk_partition_exactly_once on a 1000-byte resource split
across 4 workers, at the final byte. -/
theorem chunk_partition_exactly_once_witness :
    1 ≤ 4 ∧ countCovering 1000 4 999 = if 999 < 1000 then 1 else 0 :=
  ⟨by decide, chunk_partition_exactly_once 1000 4 (by decide) 999⟩

end Chipmusic
